import Mathlib

/-!
Shallow embedding of `runner.py`, a local judging harness: it compiles a C++
source once, loads testcases from either a msgpack `.tc` archive or a pair of
blank-line-delimited text files, runs the compiled binary per testcase under a
timeout, classifies each run, and prints a summary.

External effects (the file system, the compiler, each subprocess) are modelled
as explicit parameters: a subprocess run is a `ProcOutcome`, the compiler and
loader outcomes are fields of an `Env`.  The pure parts (verdict computation,
testcase normalisation, counting, sorting, exit codes) mirror the Python line
by line.
-/

namespace Runner

/-- Python's `str.strip()` whitespace test, for the ASCII whitespace class
(space, tab, newline, carriage return, vertical tab, form feed). -/
def pyIsSpace (c : Char) : Bool :=
  c = ' ' || c = '\t' || c = '\n' || c = '\r' || c = '\x0b' || c = '\x0c'

/-- `str.strip()` on a list of characters: drop whitespace from both ends. -/
def pyStripList (s : List Char) : List Char :=
  ((s.dropWhile pyIsSpace).reverse.dropWhile pyIsSpace).reverse

/-- Python's `str.strip()` with no argument: trim leading and trailing
whitespace. -/
def pyStrip (s : String) : String :=
  ⟨pyStripList s.data⟩

/-- One normalised testcase as stored by `load_testcases` in the `decoded`
(resp. `tcs`) dict: the `input` and `output` values.  Either may be Python
`None` (`Option.none` here): the archive loader stores `v.get(...) or
v.get(...)`, which is `None` when the field is absent or falsy. -/
structure Testcase where
  input : Option String
  output : Option String
deriving DecidableEq, Repr

/-- What `subprocess.run([EXECUTABLE], ...)` did for one testcase:
it completed within the timeout (with a return code and captured streams),
raised `TimeoutExpired`, or raised some other exception (launch or I/O
failure). -/
inductive ProcOutcome where
  | completed (returncode : Int) (stdout : String) (stderr : String)
  | timeout
  | launchError
deriving DecidableEq, Repr

/-- The dict returned by `run_test` (the `time` entry, wall-clock only, is not
modelled). -/
structure ExecutionResult where
  verdict : String
  cause : String
  output : String
  expected : String
deriving DecidableEq, Repr

/-- `run_test(tcnum, tc)` from `runner.py`, lines 219-271, with the subprocess
behaviour supplied as `po`.

* the `try` block sets `output = proc.stdout.decode().strip()` on completion;
  on `TimeoutExpired` it sets `cause = "TLE"`, on any other exception
  `cause = "ERR"`, leaving `output = ""` and `proc = None`;
* `expected = tc["output"].strip()` runs OUTSIDE the `try`: when the stored
  output is `None` this raises `AttributeError` out of `run_test`, modelled
  as `Option.none`;
* `if proc and proc.returncode != 0 and not cause: cause = "RE"`;
* `verdict = "AC" if output == expected else "WA"`. -/
def run_test (tc : Testcase) (po : ProcOutcome) : Option ExecutionResult :=
  let procRC : Option Int :=
    match po with
    | .completed rc _ _ => some rc
    | _ => none
  let output : String :=
    match po with
    | .completed _ out _ => pyStrip out
    | _ => ""
  let cause0 : String :=
    match po with
    | .completed _ _ _ => ""
    | .timeout => "TLE"
    | .launchError => "ERR"
  match tc.output with
  | none => none
  | some expRaw =>
    let expected := pyStrip expRaw
    let cause : String :=
      match procRC with
      | some rc => if rc ≠ 0 ∧ cause0 = "" then "RE" else cause0
      | none => cause0
    let verdict := if output = expected then "AC" else "WA"
    some ⟨verdict, cause, output, expected⟩

/-! ## Archive (`.tc`) loader, `load_testcases` lines 155-174 -/

/-- A msgpack scalar as the archive holds it: raw text, or a byte blob (whose
UTF-8 decoding is the carried string). -/
inductive Blob where
  | txt (s : String)
  | bin (s : String)
deriving DecidableEq, Repr

/-- `x.decode() if isinstance(x, bytes) else x`. -/
def Blob.decode : Blob → String
  | .txt s => s
  | .bin s => s

/-- Python truthiness of a text or byte blob: nonempty. -/
def Blob.truthy : Blob → Bool
  | .txt s => !s.isEmpty
  | .bin s => !s.isEmpty

/-- One archive entry's value `v`: a msgpack mapping that may hold the keys
`"input"`, `b"input"`, `"output"`, `b"output"`.  Each field is `none` when the
key is absent; `some none` when the key is present with a nil value; `some
(some blob)` when it holds text or bytes. -/
structure ArchiveVal where
  inputTxt : Option (Option Blob)
  inputBin : Option (Option Blob)
  outputTxt : Option (Option Blob)
  outputBin : Option (Option Blob)
deriving DecidableEq, Repr

/-- `b"input" in v or "input" in v` (line 164): key presence under either
encoding. -/
def hasInputField (v : ArchiveVal) : Bool :=
  v.inputBin.isSome || v.inputTxt.isSome

/-- `v.get(k1) or v.get(k2)`: `dict.get` returns `None` for an absent key (and
a stored nil is the `None` object), then Python `or` keeps the first operand
only when truthy. -/
def pyGetOr (a b : Option (Option Blob)) : Option Blob :=
  match a.join with
  | some x => if x.truthy then some x else b.join
  | none => b.join

/-- Lines 167-172: the testcase stored under the normalised key, with byte
blobs decoded and `None` preserved. -/
def decodeEntry (v : ArchiveVal) : Testcase :=
  ⟨(pyGetOr v.inputTxt v.inputBin).map Blob.decode,
   (pyGetOr v.outputTxt v.outputBin).map Blob.decode⟩

/-- `decoded[key] = ...` on a dict kept as an insertion-ordered association
list: an existing key is overwritten in place, a new key is appended. -/
def dictAssign (d : List (String × Testcase)) (k : String) (v : Testcase) :
    List (String × Testcase) :=
  if d.any (fun p => p.1 = k) then
    d.map (fun p => if p.1 = k then (k, v) else p)
  else
    d ++ [(k, v)]

/-- The `for k, v in tcs.items()` loop of lines 163-172, folded over the
archive's entries in order, accumulating the `decoded` dict. -/
def loadTcAux (acc : List (String × Testcase)) :
    List (Blob × ArchiveVal) → List (String × Testcase)
  | [] => acc
  | (k, v) :: rest =>
    if hasInputField v then
      loadTcAux (dictAssign acc k.decode (decodeEntry v)) rest
    else
      loadTcAux acc rest

/-- `load_testcases` on the `.tc` branch (lines 160-174): the archive is the
unpacked mapping as an insertion-ordered list of key/value pairs (Python dict
keys are unique as msgpack objects, but a text key and a byte key may decode
to the same string). -/
def load_testcases_tc (tcs : List (Blob × ArchiveVal)) :
    List (String × Testcase) :=
  loadTcAux [] tcs

/-! ## Text-pair loader, `load_testcases` lines 192-206 -/

/-- Python's `split("\n\n")` on a character list: cut at each non-overlapping
occurrence of two consecutive newlines, scanning left to right; the empty
content yields one empty piece. -/
def pySplitBlank : List Char → List (List Char)
  | [] => [[]]
  | '\n' :: '\n' :: rest => [] :: pySplitBlank rest
  | c :: rest =>
    match pySplitBlank rest with
    | [] => [[c]]
    | h :: t => (c :: h) :: t

/-- Python's `s.split("\n\n")`. -/
def pySplitNN (s : String) : List String :=
  (pySplitBlank s.data).map (fun l => ⟨l⟩)

/-- The `.txt` branch: each file's content is stripped and split on a blank
line (`content.strip().split("\n\n")`); a count mismatch is fatal
(`sys.exit(1)`, modelled as `none`); otherwise case `i` of each file is
stripped and stored under key `str(i)` counting from 1. -/
def load_testcases_txt (inContent outContent : String) :
    Option (List (String × Testcase)) :=
  let inputs := pySplitNN (pyStrip inContent)
  let outputs := pySplitNN (pyStrip outContent)
  if inputs.length ≠ outputs.length then
    none
  else
    some ((inputs.zip outputs).enum.map
      (fun p => (toString (p.1 + 1),
        ⟨some (pyStrip p.2.1), some (pyStrip p.2.2)⟩)))

/-! ## Aggregation and summary, `main` lines 274-314 -/

/-- `passed` after the loop: one increment per result with `verdict == "AC"`. -/
def countPassed (rs : List ExecutionResult) : Nat :=
  rs.countP (fun r => r.verdict = "AC")

/-- The three summary messages of lines 307-312. -/
inductive OverallStatus where
  | ALL_PASSED
  | SOME_FAILED
  | ALL_FAILED
deriving DecidableEq, Repr

/-- Lines 307-312: `if passed == total` / `elif passed > 0` / `else`. -/
def summaryStatus (passed total : Nat) : OverallStatus :=
  if passed = total then .ALL_PASSED
  else if 0 < passed then .SOME_FAILED
  else .ALL_FAILED

/-- The comparison `sorted(testcases.items())` sorts on: Python compares the
`(key, value)` tuples, which is decided by the string keys alone whenever the
keys differ — and dict keys are unique. -/
def keyLe (a b : String × Testcase) : Prop :=
  a.1 ≤ b.1

instance : DecidableRel keyLe :=
  fun a b => inferInstanceAs (Decidable (a.1 ≤ b.1))

instance : IsTotal (String × Testcase) keyLe :=
  ⟨fun a b => le_total a.1 b.1⟩

instance : IsTrans (String × Testcase) keyLe :=
  ⟨fun _ _ _ h h' => le_trans h h'⟩

/-- `sorted(testcases.items())` (line 284). -/
def sortedTestcases (tcs : List (String × Testcase)) :
    List (String × Testcase) :=
  List.insertionSort keyLe tcs

/-- The `for tcnum, tc in sorted(testcases.items())` loop of lines 284-304,
with the subprocess behaviour of each testcase supplied by `exec`.  Returns
the ids that were run and, when every `run_test` returned (no uncaught
exception), the list of results; a `none` from `run_test` aborts the loop (the
exception unwinds out of `main`). -/
def runTests (ex : String → Testcase → ProcOutcome) :
    List (String × Testcase) → List String × Option (List ExecutionResult)
  | [] => ([], some [])
  | (id, tc) :: rest =>
    match run_test tc (ex id tc) with
    | none => ([id], none)
    | some r =>
      (id :: (runTests ex rest).1, ((runTests ex rest).2).map (r :: ·))

/-- `parse_args` outcome: `parser.error` (source file missing, or only one of
`--txt-input`/`--txt-output` supplied) prints usage and exits; otherwise the
globals are set. -/
inductive ParseOutcome where
  | ok
  | error
deriving DecidableEq, Repr

/-- `compile_code` outcome: the `g++` invocation's return code is zero or
not. -/
inductive CompileOutcome where
  | ok
  | fail
deriving DecidableEq, Repr

/-- `load_testcases` outcome: either the normalised mapping, or a fatal error
(missing `.tc` file, missing text file, or text-pair count mismatch), which
prints a message and calls `sys.exit(1)`. -/
inductive LoadOutcome where
  | ok (tcs : List (String × Testcase))
  | fatal
deriving Repr

/-- The external world of one invocation: what argument validation, the
compiler, the loader and each per-testcase subprocess do. -/
structure Env where
  parse : ParseOutcome
  compile : CompileOutcome
  load : LoadOutcome
  ex : String → Testcase → ProcOutcome

/-- Observable outcome of one whole run: the process exit code, whether the
compiler was invoked, the testcase ids the loop reached, and the summary
`(passed, total, status)` when the loop completed. -/
structure RunReport where
  exitCode : Nat
  compilerInvoked : Bool
  executedIds : List String
  summary : Option (Nat × Nat × OverallStatus)
deriving DecidableEq, Repr

/-- The whole program: `parse_args()` then `main()` (lines 317-319, 274-314).

* `parser.error` exits the process with status 2 (argparse's convention),
  before `main` runs — no compilation, no testcases;
* `main` runs `compile_code()` FIRST; a non-zero compile exits 1 with no
  testcases attempted;
* `load_testcases()` runs after compilation; a fatal load error exits 1;
* an empty mapping prints a warning and returns (exit 0);
* otherwise the loop runs over `sorted(testcases.items())`; an exception
  escaping `run_test` aborts the interpreter with exit code 1; a completed
  loop prints the summary over `passed` and `total = len(testcases)` and the
  process exits 0 whatever the verdicts. -/
def runHarness (env : Env) : RunReport :=
  match env.parse with
  | .error => ⟨2, false, [], none⟩
  | .ok =>
    match env.compile with
    | .fail => ⟨1, true, [], none⟩
    | .ok =>
      match env.load with
      | .fatal => ⟨1, true, [], none⟩
      | .ok tcs =>
        if tcs.isEmpty then ⟨0, true, [], none⟩
        else
          match runTests env.ex (sortedTestcases tcs) with
          | (ids, none) => ⟨1, true, ids, none⟩
          | (ids, some rs) =>
            let passed := countPassed rs
            let total := tcs.length
            ⟨0, true, ids, some (passed, total, summaryStatus passed total)⟩

/-! ## Helper lemmas -/

/-- Stripping removes exactly the leading and trailing whitespace: padding a
character list with whitespace on either side does not change its strip. -/
lemma pyStripList_pad (s w₁ w₂ : List Char)
    (h₁ : ∀ c ∈ w₁, pyIsSpace c) (h₂ : ∀ c ∈ w₂, pyIsSpace c) :
    pyStripList (w₁ ++ s ++ w₂) = pyStripList s := by
  have hw₁ : w₁.dropWhile pyIsSpace = [] := List.dropWhile_eq_nil_iff.mpr h₁
  have hw₂ : w₂.dropWhile pyIsSpace = [] := List.dropWhile_eq_nil_iff.mpr h₂
  have hw₂r : w₂.reverse.dropWhile pyIsSpace = [] :=
    List.dropWhile_eq_nil_iff.mpr (fun c hc => h₂ c (List.mem_reverse.mp hc))
  unfold pyStripList
  rw [List.append_assoc, List.dropWhile_append, hw₁]
  simp only [List.isEmpty_nil, if_true]
  rw [List.dropWhile_append]
  by_cases hs : (s.dropWhile pyIsSpace).isEmpty
  · simp only [hs, if_true, hw₂]
    rw [List.isEmpty_iff] at hs
    simp [hs]
  · simp only [hs, Bool.false_eq_true, if_false, List.reverse_append]
    rw [List.dropWhile_append, hw₂r]
    simp

/-- String form of `pyStripList_pad`. -/
lemma pyStrip_pad (s : String) (w₁ w₂ : List Char)
    (h₁ : ∀ c ∈ w₁, pyIsSpace c) (h₂ : ∀ c ∈ w₂, pyIsSpace c) :
    pyStrip ⟨w₁ ++ s.data ++ w₂⟩ = pyStrip s := by
  unfold pyStrip
  rw [pyStripList_pad s.data w₁ w₂ h₁ h₂]

/-- `run_test` on a completed process: the cause is `RE` exactly on a non-zero
return code, and the verdict compares the stripped streams. -/
lemma run_test_completed (tc : Testcase) (exp out err : String) (rc : Int)
    (hout : tc.output = some exp) :
    run_test tc (.completed rc out err) =
      some ⟨if pyStrip out = pyStrip exp then "AC" else "WA",
            if rc ≠ 0 then "RE" else "", pyStrip out, pyStrip exp⟩ := by
  by_cases hrc : rc = 0 <;> simp [run_test, hout, hrc]

/-- `run_test` never raises when the stored output is present. -/
lemma run_test_isSome (tc : Testcase) (po : ProcOutcome)
    (h : tc.output.isSome) : (run_test tc po).isSome := by
  obtain ⟨exp, hexp⟩ := Option.isSome_iff_exists.mp h
  cases po <;> simp [run_test, hexp]

/-! ## Claims about `run_test` classification -/

/-- C1 is false on the code: a completed process with return code 1 whose
trimmed stdout equals the trimmed expected output is recorded with verdict
`"AC"` (ACCEPTED) — only the `cause` field says `"RE"`. -/
theorem C1_counterexample :
    run_test ⟨some "x", some "hello"⟩ (.completed 1 "hello\n" "boom") =
      some ⟨"AC", "RE", "hello", "hello"⟩ ∧ (1 : Int) ≠ 0 := by
  constructor
  · rfl
  · decide

/-- C1 (amended): on a non-zero exit within the timeout the recorded CAUSE is
`RE`, but the verdict is computed solely from the output comparison: it is
`AC` whenever the trimmed stdout equals the trimmed expected output, and `WA`
otherwise — the exit code does not influence the verdict. -/
theorem C1_nonzero_exit (tc : Testcase) (exp out err : String) (rc : Int)
    (hrc : rc ≠ 0) (hout : tc.output = some exp) :
    run_test tc (.completed rc out err) =
      some ⟨if pyStrip out = pyStrip exp then "AC" else "WA",
            "RE", pyStrip out, pyStrip exp⟩ := by
  rw [run_test_completed tc exp out err rc hout, if_pos hrc]

/-- Witness for C1 at a concrete input: return code 2, matching output. -/
theorem C1_witness :
    run_test ⟨some "w", some "ok"⟩ (.completed 2 " ok " "e") =
      some ⟨if pyStrip " ok " = pyStrip "ok" then "AC" else "WA",
            "RE", pyStrip " ok ", pyStrip "ok"⟩ :=
  C1_nonzero_exit ⟨some "w", some "ok"⟩ "ok" " ok " "e" 2 (by decide) rfl

/-- C2 is false on the code: a timed-out run against a whitespace-only
expected output is recorded with verdict `"AC"` (and would be counted as
passed); only the `cause` field says `"TLE"`. -/
theorem C2_counterexample :
    run_test ⟨some "x", some " \n"⟩ .timeout = some ⟨"AC", "TLE", "", ""⟩ ∧
    countPassed [⟨"AC", "TLE", "", ""⟩] = 1 := by
  constructor
  · rfl
  · rfl

/-- C2 (amended): on `TimeoutExpired` the recorded CAUSE is `TLE` and the
captured output stays `""`, but the verdict is still the output comparison:
`WA` whenever the expected output is nonempty after trimming, yet `AC` when it
trims to the empty string — so a timeout is not always excluded from being
classified accepted. -/
theorem C2_timeout (tc : Testcase) (exp : String) (hout : tc.output = some exp) :
    run_test tc .timeout =
      some ⟨if "" = pyStrip exp then "AC" else "WA", "TLE", "", pyStrip exp⟩ := by
  simp [run_test, hout]

/-- Witness for C2 at a concrete input: expected output `"yes"`. -/
theorem C2_witness :
    run_test ⟨some "i", some "yes"⟩ .timeout =
      some ⟨if "" = pyStrip "yes" then "AC" else "WA", "TLE", "", pyStrip "yes"⟩ :=
  C2_timeout ⟨some "i", some "yes"⟩ "yes" rfl

/-- C4: a process that completes with exit code zero is judged purely by the
whitespace-trimmed output comparison: verdict `AC` iff the stripped stdout
equals the stripped expected output, `WA` iff they differ; in particular
stdout that differs from the expected output only by leading/trailing
whitespace is accepted. -/
theorem C4_zero_exit_output_comparison (tc : Testcase) (exp out err : String)
    (hout : tc.output = some exp) :
    ((run_test tc (.completed 0 out err)).map ExecutionResult.verdict = some "AC" ↔
      pyStrip out = pyStrip exp) ∧
    ((run_test tc (.completed 0 out err)).map ExecutionResult.verdict = some "WA" ↔
      pyStrip out ≠ pyStrip exp) ∧
    (∀ w₁ w₂ : List Char, (∀ c ∈ w₁, pyIsSpace c) → (∀ c ∈ w₂, pyIsSpace c) →
      (run_test tc (.completed 0 ⟨w₁ ++ exp.data ++ w₂⟩ err)).map
          ExecutionResult.verdict = some "AC") := by
  refine ⟨?_, ?_, ?_⟩
  · rw [run_test_completed tc exp out err 0 hout]
    by_cases h : pyStrip out = pyStrip exp <;> simp [h]
  · rw [run_test_completed tc exp out err 0 hout]
    by_cases h : pyStrip out = pyStrip exp <;> simp [h]
  · intro w₁ w₂ h₁ h₂
    rw [run_test_completed tc exp _ err 0 hout,
      if_pos (pyStrip_pad exp w₁ w₂ h₁ h₂)]
    rfl

/-- Witness for C4 at a concrete input: stdout `"42 \n"` against expected
`" 42"`. -/
theorem C4_witness :
    ((run_test ⟨some "d", some " 42"⟩ (.completed 0 "42 \n" "")).map
        ExecutionResult.verdict = some "AC" ↔ pyStrip "42 \n" = pyStrip " 42") ∧
    ((run_test ⟨some "d", some " 42"⟩ (.completed 0 "42 \n" "")).map
        ExecutionResult.verdict = some "WA" ↔ pyStrip "42 \n" ≠ pyStrip " 42") ∧
    (∀ w₁ w₂ : List Char, (∀ c ∈ w₁, pyIsSpace c) → (∀ c ∈ w₂, pyIsSpace c) →
      (run_test ⟨some "d", some " 42"⟩
          (.completed 0 ⟨w₁ ++ (" 42" : String).data ++ w₂⟩ "")).map
          ExecutionResult.verdict = some "AC") :=
  C4_zero_exit_output_comparison ⟨some "d", some " 42"⟩ " 42" "42 \n" "" rfl

/-- C9: when the expected output trims to the empty string, a timed-out run
and a failed-launch run both record verdict `AC` — the captured output
defaults to `""` on those paths and the verdict only compares trimmed
strings — and such a result is counted as passed by the summary loop. -/
theorem C9_empty_expected_accepted (tc : Testcase) (exp : String)
    (hout : tc.output = some exp) (hemp : pyStrip exp = "") :
    run_test tc .timeout = some ⟨"AC", "TLE", "", ""⟩ ∧
    run_test tc .launchError = some ⟨"AC", "ERR", "", ""⟩ ∧
    (∀ rs, countPassed (⟨"AC", "TLE", "", ""⟩ :: rs) = countPassed rs + 1) := by
  refine ⟨?_, ?_, ?_⟩
  · simp [run_test, hout, hemp]
  · simp [run_test, hout, hemp]
  · intro rs
    simp [countPassed, List.countP_cons]

/-- Witness for C9 at a concrete input: expected output `"\n \n"`. -/
theorem C9_witness :
    run_test ⟨some "i", some "\n \n"⟩ .timeout = some ⟨"AC", "TLE", "", ""⟩ ∧
    run_test ⟨some "i", some "\n \n"⟩ .launchError = some ⟨"AC", "ERR", "", ""⟩ ∧
    (∀ rs, countPassed (⟨"AC", "TLE", "", ""⟩ :: rs) = countPassed rs + 1) :=
  C9_empty_expected_accepted ⟨some "i", some "\n \n"⟩ "\n \n" rfl rfl

/-- C5 is false on the code: an archive entry carrying an `input` field but no
`output` field loads into the `decoded` dict with `output = None`, and
`run_test` on that testcase raises (`tc["output"].strip()` on `None`, outside
the `try`), which crashes the whole run — the interpreter exits with code 1
and no summary is printed. -/
theorem C5_counterexample :
    load_testcases_tc [(.txt "1", ⟨some (some (.txt "5")), none, none, none⟩)] =
      [("1", ⟨some "5", none⟩)] ∧
    run_test ⟨some "5", none⟩ (.completed 0 "5" "") = none ∧
    runHarness ⟨.ok, .ok, .ok [("1", ⟨some "5", none⟩)],
        fun _ _ => .completed 0 "5" ""⟩ = ⟨1, true, ["1"], none⟩ := by
  refine ⟨rfl, rfl, rfl⟩

/-- C5 (amended): every failure of the subprocess phase itself — timeout,
launch error, I/O error — is caught inside `run_test` and converted into a
result, PROVIDED the loaded testcase has an output field; a testcase whose
stored output is `None` makes `run_test` raise on every process outcome,
which does crash the overall run. -/
theorem C5_per_testcase_failures (tc : Testcase) (po : ProcOutcome)
    (h : tc.output.isSome) :
    (run_test tc po).isSome ∧
    (∀ tc' : Testcase, tc'.output = none → run_test tc' po = none) := by
  refine ⟨run_test_isSome tc po h, ?_⟩
  intro tc' h'
  cases po <;> simp [run_test, h']

/-- Witness for C5 at a concrete input. -/
theorem C5_witness :
    (run_test ⟨some "a", some "b"⟩ .timeout).isSome ∧
    (∀ tc' : Testcase, tc'.output = none → run_test tc' .timeout = none) :=
  C5_per_testcase_failures ⟨some "a", some "b"⟩ .timeout rfl

/-- The per-testcase loop completes (no uncaught exception) when every loaded
testcase carries an output field. -/
lemma runTests_isSome (ex : String → Testcase → ProcOutcome) :
    ∀ l : List (String × Testcase), (∀ p ∈ l, p.2.output.isSome) →
    (runTests ex l).2.isSome := by
  intro l
  induction l with
  | nil => intro _; simp [runTests]
  | cons x rest ih =>
    intro h
    obtain ⟨id, tc⟩ := x
    obtain ⟨r, hr⟩ := Option.isSome_iff_exists.mp
      (run_test_isSome tc (ex id tc) (h (id, tc) (List.mem_cons_self _ rest)))
    obtain ⟨rs, hrs⟩ := Option.isSome_iff_exists.mp
      (ih (fun p hp => h p (List.mem_cons_of_mem _ hp)))
    simp [runTests, hr, hrs]

/-- A completed loop produced exactly one result per testcase. -/
lemma runTests_length (ex : String → Testcase → ProcOutcome) :
    ∀ (l : List (String × Testcase)) (rs : List ExecutionResult),
    (runTests ex l).2 = some rs → rs.length = l.length := by
  intro l
  induction l with
  | nil =>
    intro rs h
    simp only [runTests] at h
    simp [← Option.some.inj h]
  | cons x rest ih =>
    intro rs h
    obtain ⟨id, tc⟩ := x
    rcases hrun : run_test tc (ex id tc) with _ | r
    · simp [runTests, hrun] at h
    · rcases hres : (runTests ex rest).2 with _ | rs'
      · simp [runTests, hrun, hres] at h
      · simp only [runTests, hrun, hres, Option.map_some] at h
        rw [← Option.some.inj h]
        simp [ih rs' hres]

/-- The three-way branch of lines 307-312 as a function of `(passed, total)`,
for a nonempty batch with `passed ≤ total`. -/
lemma summaryStatus_spec (p t : Nat) (ht : 0 < t) (hp : p ≤ t) :
    (summaryStatus p t = .ALL_PASSED ↔ p = t) ∧
    (summaryStatus p t = .SOME_FAILED ↔ 0 < p ∧ p < t) ∧
    (summaryStatus p t = .ALL_FAILED ↔ p = 0) := by
  unfold summaryStatus
  split_ifs with h1 h2 <;> refine ⟨?_, ?_, ?_⟩ <;> simp_all <;> omega

/-! ## Claims about the whole-run pipeline -/

/-- C3 is false on the code: `main` invokes `compile_code()` BEFORE
`load_testcases()`, so on a run whose testcase loading fails fatally the
compiler has already been invoked. -/
theorem C3_counterexample :
    (runHarness ⟨.ok, .ok, .fatal, fun _ _ => .timeout⟩).compilerInvoked
      = true := rfl

/-- C3 (amended): on a fatal load error the harness aborts with exit code 1,
executes no testcase and prints no summary — but since compilation precedes
loading in `main`, the compiler has already been invoked by then. -/
theorem C3_fatal_load_aborts (ex : String → Testcase → ProcOutcome) :
    runHarness ⟨.ok, .ok, .fatal, ex⟩ = ⟨1, true, [], none⟩ := rfl

/-- C6 is false on the code: the configuration errors routed through
`argparse`'s `parser.error` (missing source file, only one of the text-pair
paths supplied) exit the process with code 2, not 1. -/
theorem C6_counterexample :
    (runHarness ⟨.error, .ok, .ok [], fun _ _ => .timeout⟩).exitCode = 2 ∧
    (runHarness ⟨.error, .ok, .ok [], fun _ _ => .timeout⟩).exitCode ≠ 1 := by
  exact ⟨rfl, by decide⟩

/-- C6 (amended): `parser.error` configuration failures exit with code 2;
fatal loader errors and compile errors exit with code 1; and a run that gets
past loading (with every loaded testcase carrying an output field) exits with
code 0 no matter how many testcases passed. -/
theorem C6_exit_codes (co : CompileOutcome) (lo : LoadOutcome)
    (ex : String → Testcase → ProcOutcome) (tcs : List (String × Testcase))
    (hall : ∀ p ∈ tcs, p.2.output.isSome) :
    (runHarness ⟨.error, co, lo, ex⟩).exitCode = 2 ∧
    (runHarness ⟨.ok, .fail, lo, ex⟩).exitCode = 1 ∧
    (runHarness ⟨.ok, .ok, .fatal, ex⟩).exitCode = 1 ∧
    (runHarness ⟨.ok, .ok, .ok tcs, ex⟩).exitCode = 0 := by
  refine ⟨rfl, rfl, rfl, ?_⟩
  · by_cases he : tcs.isEmpty
    · simp [runHarness, he]
    · obtain ⟨rs, hrs⟩ := Option.isSome_iff_exists.mp
        (runTests_isSome ex (sortedTestcases tcs) (fun p hp =>
          hall p ((List.perm_insertionSort keyLe tcs).mem_iff.mp hp)))
      rcases hpair : runTests ex (sortedTestcases tcs) with ⟨ids, res⟩
      rw [hpair] at hrs
      simp only at hrs
      simp [runHarness, he, hpair, hrs]

/-- Witness for C6 at concrete environments: one testcase whose run yields a
wrong answer, and the run still exits 0. -/
theorem C6_witness :
    (runHarness ⟨.error, .fail, .fatal, fun _ _ => .timeout⟩).exitCode = 2 ∧
    (runHarness ⟨.ok, .fail, .fatal, fun _ _ => .timeout⟩).exitCode = 1 ∧
    (runHarness ⟨.ok, .ok, .fatal, fun _ _ => .timeout⟩).exitCode = 1 ∧
    (runHarness ⟨.ok, .ok, .ok [("1", ⟨some "i", some "o"⟩)],
        fun _ _ => .timeout⟩).exitCode = 0 :=
  C6_exit_codes .fail .fatal (fun _ _ => .timeout)
    [("1", ⟨some "i", some "o"⟩)] (by decide)

/-- C8: whenever the run reaches its summary, `passed ≤ total` holds and the
overall status is the pure function of `(passed, total)` the spec describes:
`ALL_PASSED` iff `passed = total`, `SOME_FAILED` iff `0 < passed < total`,
`ALL_FAILED` iff `passed = 0`. -/
theorem C8_summary_invariant (env : Env) (p t : Nat) (st : OverallStatus)
    (h : (runHarness env).summary = some (p, t, st)) :
    p ≤ t ∧ (st = .ALL_PASSED ↔ p = t) ∧
    (st = .SOME_FAILED ↔ 0 < p ∧ p < t) ∧ (st = .ALL_FAILED ↔ p = 0) := by
  obtain ⟨pa, co, lo, ex⟩ := env
  cases pa with
  | error => simp [runHarness] at h
  | ok =>
  cases co with
  | fail => simp [runHarness] at h
  | ok =>
  cases lo with
  | fatal => simp [runHarness] at h
  | ok tcs =>
  by_cases he : tcs.isEmpty
  · simp [runHarness, he] at h
  · rcases hpair : runTests ex (sortedTestcases tcs) with ⟨ids, res⟩
    cases res with
    | none => simp [runHarness, he, hpair] at h
    | some rs =>
      simp only [runHarness, he, hpair, Bool.false_eq_true, if_false,
        Option.some.injEq, Prod.mk.injEq] at h
      obtain ⟨hp, ht, hst⟩ := h
      subst hp; subst ht; subst hst
      have hlen : rs.length = (sortedTestcases tcs).length :=
        runTests_length ex (sortedTestcases tcs) rs (by rw [hpair])
      have hperm : (sortedTestcases tcs).length = tcs.length :=
        (List.perm_insertionSort keyLe tcs).length_eq
      have hple : countPassed rs ≤ tcs.length := by
        have := List.countP_le_length (fun r => decide (r.verdict = "AC"))
          (l := rs)
        rw [hlen, hperm] at this
        exact this
      have ht0 : 0 < tcs.length := by
        cases tcs with
        | nil => simp at he
        | cons a l => simp
      obtain ⟨h1, h2, h3⟩ := summaryStatus_spec (countPassed rs) tcs.length ht0 hple
      exact ⟨hple, h1, h2, h3⟩

/-- Witness for C8 at a concrete environment: one testcase, matching
output. -/
theorem C8_witness :
    1 ≤ 1 ∧ (OverallStatus.ALL_PASSED = .ALL_PASSED ↔ 1 = 1) ∧
    (OverallStatus.ALL_PASSED = .SOME_FAILED ↔ 0 < 1 ∧ 1 < 1) ∧
    (OverallStatus.ALL_PASSED = .ALL_FAILED ↔ 1 = 0) :=
  C8_summary_invariant ⟨.ok, .ok, .ok [("1", ⟨some "i", some "o"⟩)],
    fun _ _ => .completed 0 "o" ""⟩ 1 1 .ALL_PASSED rfl

/-! ## Claims about the loaders -/

/-- `decoded[key] = v` appends when the key is new. -/
lemma dictAssign_of_not_mem (d : List (String × Testcase)) (k : String)
    (v : Testcase) (h : k ∉ d.map Prod.fst) : dictAssign d k v = d ++ [(k, v)] := by
  unfold dictAssign
  rw [if_neg]
  intro hany
  rw [List.any_eq_true] at hany
  obtain ⟨p, hp, hpk⟩ := hany
  exact h (List.mem_map.mpr ⟨p, hp, of_decide_eq_true hpk⟩)

/-- The archive loop grows the accumulator by exactly one entry per
input-bearing archive entry, as long as no normalised key collides with an
earlier one (including the accumulator's keys). -/
lemma loadTcAux_length (tcs : List (Blob × ArchiveVal)) :
    ∀ acc : List (String × Testcase),
    (acc.map Prod.fst ++
      (tcs.filter (fun p => hasInputField p.2)).map (fun p => p.1.decode)).Nodup →
    (loadTcAux acc tcs).length =
      acc.length + tcs.countP (fun p => hasInputField p.2) := by
  induction tcs with
  | nil =>
    intro acc _
    simp [loadTcAux]
  | cons x rest ih =>
    intro acc h
    obtain ⟨k, v⟩ := x
    by_cases hx : hasInputField v
    · rw [List.filter_cons_of_pos (by simpa using hx)] at h
      simp only [List.map_cons] at h
      have hnotmem : k.decode ∉ acc.map Prod.fst := by
        rw [List.nodup_append] at h
        intro hmem
        exact h.2.2 hmem (List.mem_cons_self _ _)
      have hnext : ((acc ++ [(k.decode, decodeEntry v)]).map Prod.fst ++
          (rest.filter (fun p => hasInputField p.2)).map
            (fun p => p.1.decode)).Nodup := by
        rw [List.map_append, List.append_assoc]
        simpa using h
      simp only [loadTcAux]
      rw [if_pos hx, dictAssign_of_not_mem acc k.decode (decodeEntry v) hnotmem]
      rw [ih (acc ++ [(k.decode, decodeEntry v)]) hnext]
      rw [List.countP_cons_of_pos _ _ (by simpa using hx)]
      simp
      omega
    · rw [List.filter_cons_of_neg (by simpa using hx)] at h
      simp only [loadTcAux]
      rw [if_neg hx]
      rw [ih acc h, List.countP_cons_of_neg _ _ (by simpa using hx)]

/-- C7: on an archive whose input-bearing entries have pairwise distinct
normalised keys, the loader keeps exactly one entry per archive entry with an
`input` field (text- or byte-keyed): entries without one are skipped and the
loaded count equals the count of input-bearing entries. -/
theorem C7_loaded_count (tcs : List (Blob × ArchiveVal))
    (h : ((tcs.filter (fun p => hasInputField p.2)).map
      (fun p => p.1.decode)).Nodup) :
    (load_testcases_tc tcs).length = tcs.countP (fun p => hasInputField p.2) := by
  have := loadTcAux_length tcs [] (by simpa using h)
  simpa [load_testcases_tc] using this

/-- A three-entry archive: two entries carry an input field (one under a byte
key), the third is structural. -/
def c7Archive : List (Blob × ArchiveVal) :=
  [(.txt "1", ⟨some (some (.txt "a")), none, some (some (.txt "x")), none⟩),
   (.bin "meta", ⟨none, none, some (some (.txt "o")), none⟩),
   (.bin "2", ⟨none, some (some (.bin "b")), none, some (some (.bin "y"))⟩)]

/-- Witness for C7 at a concrete archive. -/
theorem C7_witness :
    (load_testcases_tc c7Archive).length =
      c7Archive.countP (fun p => hasInputField p.2) :=
  C7_loaded_count c7Archive (by decide)

/-- Positional enumeration from 1, rendered to strings. -/
lemma enum_map_toString {α : Type} (l : List α) :
    l.enum.map (fun p => toString (p.1 + 1)) =
      (List.range' 1 l.length).map (fun i => toString i) := by
  rw [List.range'_eq_map_range, List.map_map, ← List.enum_map_fst l,
    List.map_map]
  apply List.map_congr_left
  intro p _
  simp [Nat.add_comm]

/-- The text-pair loader assigns the decimal ids `"1"` through `"n"` in
positional order. -/
lemma load_testcases_txt_ids (inC outC : String) (tcs : List (String × Testcase))
    (h : load_testcases_txt inC outC = some tcs) :
    tcs.map Prod.fst = (List.range' 1 tcs.length).map (fun i => toString i) := by
  simp only [load_testcases_txt] at h
  split at h
  · exact absurd h (by simp)
  · rw [← Option.some.inj h]
    rw [List.map_map, List.length_map, List.enum_length]
    exact enum_map_toString _

/-- `["1", ..., "9", "10"]` is not sorted under lexicographic string order:
`"2"` precedes `"10"` but `"2" > "10"`. -/
lemma not_pairwise_digits :
    ¬ List.Pairwise (· ≤ ·) (["1","2","3","4","5","6","7","8","9","10"] : List String) := by
  intro h
  have hsub : List.Sublist (["2","10"] : List String)
      ["1","2","3","4","5","6","7","8","9","10"] := by decide
  have h2 := (List.pairwise_cons.mp (h.sublist hsub)).1 "10" (by decide)
  rw [String.le_iff_toList_le] at h2
  exact absurd h2 (by decide)

/-- C10: the text-pair loader names the cases `"1"` through `"n"` in file
order, and the main loop runs them in lexicographically sorted id order — so
for every batch of ten or more cases the execution order differs from the
positional order (e.g. `"10"` runs right after `"1"`, before `"2"`). -/
theorem C10_execution_order (inC outC : String) (tcs : List (String × Testcase))
    (h : load_testcases_txt inC outC = some tcs) (hn : 10 ≤ tcs.length) :
    tcs.map Prod.fst = (List.range' 1 tcs.length).map (fun i => toString i) ∧
    (sortedTestcases tcs).map Prod.fst ≠ tcs.map Prod.fst := by
  have hids := load_testcases_txt_ids inC outC tcs h
  refine ⟨hids, ?_⟩
  intro heq
  have hsorted : List.Pairwise keyLe (sortedTestcases tcs) :=
    List.sorted_insertionSort keyLe tcs
  have hidsorted : List.Pairwise (· ≤ ·) ((sortedTestcases tcs).map Prod.fst) :=
    List.Pairwise.map Prod.fst (fun _ _ hab => hab) hsorted
  rw [heq, hids] at hidsorted
  have hsplit : List.range' 1 10 ++ List.range' 11 (tcs.length - 10) =
      List.range' 1 tcs.length := by
    have happ := List.range'_append 1 10 (tcs.length - 10) 1
    simp only [Nat.mul_comm, Nat.mul_one] at happ
    rw [Nat.sub_add_cancel hn] at happ
    simpa using happ
  rw [← hsplit, List.map_append] at hidsorted
  have hpre := (List.pairwise_append.mp hidsorted).1
  have hlit : (List.range' 1 10).map (fun i => toString i) =
      ["1","2","3","4","5","6","7","8","9","10"] := by decide
  rw [hlit] at hpre
  exact not_pairwise_digits hpre

/-- Ten text-pair testcases as the loader builds them from ten blank-line
delimited blocks. -/
def c10Tcs : List (String × Testcase) :=
  [("1", ⟨some "a1", some "b1"⟩), ("2", ⟨some "a2", some "b2"⟩),
   ("3", ⟨some "a3", some "b3"⟩), ("4", ⟨some "a4", some "b4"⟩),
   ("5", ⟨some "a5", some "b5"⟩), ("6", ⟨some "a6", some "b6"⟩),
   ("7", ⟨some "a7", some "b7"⟩), ("8", ⟨some "a8", some "b8"⟩),
   ("9", ⟨some "a9", some "b9"⟩), ("10", ⟨some "a10", some "b10"⟩)]

/-- The matching raw file contents for `c10Tcs`. -/
def c10In : String :=
  "a1\n\na2\n\na3\n\na4\n\na5\n\na6\n\na7\n\na8\n\na9\n\na10"

/-- The matching raw expected-output file for `c10Tcs`. -/
def c10Out : String :=
  "b1\n\nb2\n\nb3\n\nb4\n\nb5\n\nb6\n\nb7\n\nb8\n\nb9\n\nb10"

/-- Witness for C10 at a concrete ten-case text pair. -/
theorem C10_witness :
    c10Tcs.map Prod.fst = (List.range' 1 c10Tcs.length).map (fun i => toString i) ∧
    (sortedTestcases c10Tcs).map Prod.fst ≠ c10Tcs.map Prod.fst :=
  C10_execution_order c10In c10Out c10Tcs (by decide) (by decide)

end Runner

